import Mathlib

/- Verification of the player-review application's assessment store and its
weekly performance-aggregation logic.

The data model follows `shared/schema.ts`; the storage operations follow
`MemStorage` in `server/storage.ts`; the weekly chart derivation follows
the `chartData` computation in `client/src/components/PerformanceChart.tsx`.

Modelling conventions:
* JavaScript `Map` objects (insertion-ordered, unique keys) are modelled as
  lists of records together with a well-formedness predicate stating that
  keys are pairwise distinct; `Map.set` is `mapSet`, which replaces the
  entry in place when the key is present and appends otherwise.
* Dates are modelled by their millisecond timestamps (`Int`), which is
  exactly what the code compares (`new Date(x).getTime()`).
* JavaScript numbers appearing in the modelled code are integers
  (identifiers, ratings) or results of exact divisions of small integers
  (averages); they are modelled as `Int` / `Rat`.
* `Math.round` is `jsRound` (floor of `x + 1/2`), `Math.floor` is `Int.floor`.
* Truthiness: `0` is the only falsy `Int`, `""` the only falsy `String`,
  `null`/`undefined` are `Option.none`.
-/

namespace PlayerReview

/-- Table `users` of `shared/schema.ts`. -/
structure User where
  id : Nat
  username : String
  password : String
deriving DecidableEq

/-- Table `players` of `shared/schema.ts`. -/
structure Player where
  id : Nat
  name : String
  batch : String
  photoUrl : Option String
  dateOfBirth : Option String
  age : Option Int
  bio : Option String
  battingStyle : Option String
  bowlingStyle : Option String
  specialization : Option String
  yearsOfExperience : Option Int
  height : Option String
  weight : Option String
  dominantHand : Option String
  status : Option String
  joinedDate : Option Int
deriving DecidableEq

/-- Table `performance_assessments` of `shared/schema.ts`.  The `isLatest`
flag is the "current assessment" marker. -/
structure PerformanceAssessment where
  id : Nat
  playerId : Nat
  weekStart : Int
  weekEnd : Int
  notes : Option String
  isLatest : Bool
deriving DecidableEq

/-- Table `performance_metrics` of `shared/schema.ts`. -/
structure PerformanceMetric where
  id : Nat
  assessmentId : Nat
  metricType : String
  rating : Int
  value : Option String
  notes : Option String
  videoUrl : Option String
deriving DecidableEq

/-- Table `videos` of `shared/schema.ts`. -/
structure Video where
  id : Nat
  playerId : Nat
  title : String
  url : String
  recordedDate : Int
  shotType : Option String
  ballLength : Option String
  ballSpeed : Option String
  batConnect : Option String
deriving DecidableEq

/-- Table `problem_areas` of `shared/schema.ts`. -/
structure ProblemArea where
  id : Nat
  assessmentId : Nat
  areaType : String
  rating : Int
  notes : Option String
deriving DecidableEq

/-- Shape `InsertPerformanceAssessment` (the insert shape: an assessment minus its
generated `id`).  A `null`/missing `isLatest` behaves like `false` in the
code (it is only ever used for its truthiness), so it is modelled as `Bool`. -/
structure InsertPerformanceAssessment where
  playerId : Nat
  weekStart : Int
  weekEnd : Int
  notes : Option String
  isLatest : Bool
deriving DecidableEq

/-- Shape `Partial<InsertPlayer>`: every insertable field may be absent.  An absent
field is `none`; a present field carries the (possibly null) column value. -/
structure PlayerUpdate where
  name : Option String
  batch : Option String
  photoUrl : Option (Option String)
  dateOfBirth : Option (Option String)
  age : Option (Option Int)
  bio : Option (Option String)
  battingStyle : Option (Option String)
  bowlingStyle : Option (Option String)
  specialization : Option (Option String)
  yearsOfExperience : Option (Option Int)
  height : Option (Option String)
  weight : Option (Option String)
  dominantHand : Option (Option String)
  status : Option (Option String)
  joinedDate : Option (Option Int)
deriving DecidableEq

/-- The update object with no supplied fields (`{}` in TypeScript). -/
def PlayerUpdate.empty : PlayerUpdate :=
  ⟨none, none, none, none, none, none, none, none, none, none, none, none,
   none, none, none⟩

/-- The state of `MemStorage` (`server/storage.ts`): one insertion-ordered
keyed collection per entity kind, plus the identity counters. -/
structure MemStorage where
  users : List User
  players : List Player
  assessments : List PerformanceAssessment
  metrics : List PerformanceMetric
  videos : List Video
  problemAreas : List ProblemArea
  userCurrentId : Nat
  playerCurrentId : Nat
  assessmentCurrentId : Nat
  metricCurrentId : Nat
  videoCurrentId : Nat
  problemAreaCurrentId : Nat
deriving DecidableEq

/-- JavaScript `Map.set` on an insertion-ordered association list: replace
the entry in place when the key is already present, append otherwise. -/
def mapSet (key : α → Nat) : List α → Nat → α → List α
  | [], _, v => [v]
  | a :: l, k, v => if key a = k then v :: l else a :: mapSet key l k v

/-- Operation `MemStorage.getPlayerAssessments`: scan of the assessment collection in
insertion order. -/
def getPlayerAssessments (st : MemStorage) (playerId : Nat) :
    List PerformanceAssessment :=
  st.assessments.filter (fun a => a.playerId == playerId)

/-- Operation `MemStorage.createAssessment` (`server/storage.ts` lines 131-146): when
the insert is flagged latest, walk the player's assessments and clear every
set `isLatest` flag via `Map.set`, then insert the new record under the next
identity. -/
def createAssessment (st : MemStorage) (ins : InsertPerformanceAssessment) :
    PerformanceAssessment × MemStorage :=
  let cleared :=
    if ins.isLatest then
      List.foldl
        (fun acc a =>
          if a.isLatest then
            mapSet (fun x => x.id) acc a.id { a with isLatest := false }
          else acc)
        st.assessments (getPlayerAssessments st ins.playerId)
    else st.assessments
  let newId := st.assessmentCurrentId
  let a : PerformanceAssessment :=
    { id := newId, playerId := ins.playerId, weekStart := ins.weekStart,
      weekEnd := ins.weekEnd, notes := ins.notes, isLatest := ins.isLatest }
  (a, { st with assessments := mapSet (fun x => x.id) cleared newId a,
                assessmentCurrentId := st.assessmentCurrentId + 1 })

/-- The state after `createAssessment` (discarding the returned record). -/
def createAssessmentState (st : MemStorage) (ins : InsertPerformanceAssessment) :
    MemStorage :=
  (createAssessment st ins).2

/-- Merge `{...existingPlayer, ...playerUpdate}`: supplied fields override,
absent fields keep their prior value; the identity is not insertable and is
always kept. -/
def mergePlayer (p : Player) (u : PlayerUpdate) : Player :=
  { id := p.id
    name := u.name.getD p.name
    batch := u.batch.getD p.batch
    photoUrl := u.photoUrl.getD p.photoUrl
    dateOfBirth := u.dateOfBirth.getD p.dateOfBirth
    age := u.age.getD p.age
    bio := u.bio.getD p.bio
    battingStyle := u.battingStyle.getD p.battingStyle
    bowlingStyle := u.bowlingStyle.getD p.bowlingStyle
    specialization := u.specialization.getD p.specialization
    yearsOfExperience := u.yearsOfExperience.getD p.yearsOfExperience
    height := u.height.getD p.height
    weight := u.weight.getD p.weight
    dominantHand := u.dominantHand.getD p.dominantHand
    status := u.status.getD p.status
    joinedDate := u.joinedDate.getD p.joinedDate }

/-- Operation `MemStorage.updatePlayer` (`server/storage.ts` lines 109-118): look the
player up; on a miss return `undefined` and leave the store untouched; on a
hit merge the partial update into the record and write it back under the
same key. -/
def updatePlayer (st : MemStorage) (pid : Nat) (u : PlayerUpdate) :
    Option Player × MemStorage :=
  match st.players.find? (fun p => p.id == pid) with
  | none => (none, st)
  | some p =>
    let p' := mergePlayer p u
    (some p', { st with players := mapSet (fun x => x.id) st.players pid p' })

/-- Operation `MemStorage.getPlayerVideos`: scan of the video collection in insertion
order. -/
def getPlayerVideos (st : MemStorage) (playerId : Nat) : List Video :=
  st.videos.filter (fun v => v.playerId == playerId)

/-- The filter-criteria object of `getFilteredVideos`. -/
structure VideoFilters where
  shotType : Option String
  ballSpeed : Option String
  batConnect : Option String
deriving DecidableEq

/-- The criteria object with no criteria (`{}` in TypeScript). -/
def VideoFilters.empty : VideoFilters := ⟨none, none, none⟩

/-- The successive narrowing steps of `getFilteredVideos` applied to a video
list.  Each step runs only when the criterion is truthy (present and
non-empty) and differs from its sentinel. -/
def applyVideoFilters (f : VideoFilters) (l : List Video) : List Video :=
  let l1 :=
    match f.shotType with
    | some s =>
      if s ≠ "" ∧ s ≠ "All Shot Types" then
        l.filter (fun v => v.shotType == some s)
      else l
    | none => l
  let l2 :=
    match f.ballSpeed with
    | some s =>
      if s ≠ "" ∧ s ≠ "All Speeds" then
        l1.filter (fun v => v.ballSpeed == some s)
      else l1
    | none => l1
  match f.batConnect with
  | some s =>
    if s ≠ "" ∧ s ≠ "All" then
      l2.filter (fun v => v.batConnect == some s)
    else l2
  | none => l2

/-- Operation `MemStorage.getFilteredVideos` (`server/storage.ts` lines 169-188). -/
def getFilteredVideos (st : MemStorage) (playerId : Nat) (f : VideoFilters) :
    List Video :=
  applyVideoFilters f (getPlayerVideos st playerId)

/- Section: Weekly performance chart derivation.
Embedding of the `chartData` computation of the line-chart component in
`client/src/components/PerformanceChart.tsx` (lines 49-128). -/

/-- The keys of the `metricNames` record, in declaration order. -/
def metricNamesKeys : List String :=
  ["reaction_time", "bat_connect", "shot_selection", "footwork",
   "cover_drive", "straight_drive"]

/-- JavaScript `Math.round`: round half toward positive infinity. -/
def jsRound (q : ℚ) : ℤ := ⌊q + 1/2⌋

/-- Rounding to one decimal place: `Math.round(x * 10) / 10`. -/
def round1 (q : ℚ) : ℚ := (jsRound (q * 10) : ℚ) / 10

/-- The ratings pushed into `metricsByType[t]` for one assessment week:
the ratings of the week's metrics whose `metricType` is `t`, in list order. -/
def ratingsFor (weekMetrics : List PerformanceMetric) (t : String) : List Int :=
  (weekMetrics.filter (fun m => m.metricType == t)).map (fun m => m.rating)

/-- Score `Math.round(average * 10) / 10` where `average` is the arithmetic mean
of the group's ratings. -/
def avgScore (rs : List Int) : ℚ :=
  round1 ((rs.sum : ℚ) / (rs.length : ℚ))

/-- Lookup `metrics.find(m => m.metricType === metricType)?.rating || 3`: the first
matching metric's rating anywhere in the metric list, with both a missing
metric and a rating of `0` (falsy) replaced by `3`. -/
def latestKnown (metrics : List PerformanceMetric) (t : String) : ℤ :=
  match metrics.find? (fun m => m.metricType == t) with
  | some m => if m.rating = 0 then 3 else m.rating
  | none => 3

/-- The simulated progression value the component fabricates for a charted
metric type with no (or falsy) data in a non-final week: `progressionFactor`
is `0.5 + index * 0.5 / n`, the estimate is `1 + Math.floor(...)` in each of
the three branches, clamped into `[1, 5]`. -/
def estimatedRating (n index : Nat) (latestValue : ℤ) : ℤ :=
  let pf : ℚ := 1/2 + ((index : ℚ) * (1/2) / (n : ℚ))
  let est : ℤ :=
    if latestValue ≤ 2 then 1 + ⌊pf * ((latestValue : ℚ) - 1)⌋
    else if latestValue = 3 then 1 + ⌊pf * 2⌋
    else 1 + ⌊pf * ((latestValue : ℚ) - 1)⌋
  max 1 (min 5 est)

/-- The metric-type → value portion of one week's `dataPoint`, as a function
from metric type to optional score.  `index` is the week's position on the
sorted temporal axis, `n` the number of assessment weeks, `metrics` the full
metric list of the component's props and `weekMetrics` its restriction to
the week's assessment.  The first stage stores the rounded group mean for
every metric type with data; the second stage (`index < n - 1` only, and
only for the six charted metric types) overwrites a missing or falsy (`0`)
entry with the simulated progression value. -/
def dataPointVals (n index : Nat) (metrics weekMetrics : List PerformanceMetric) :
    String → Option ℚ := fun t =>
  let g := ratingsFor weekMetrics t
  let base : Option ℚ := if g.isEmpty then none else some (avgScore g)
  if index < n - 1 then
    if t ∈ metricNamesKeys ∧ (base = none ∨ base = some 0) then
      some ((estimatedRating n index (latestKnown metrics t) : ℚ))
    else base
  else base

/-- One row of the chart data.  `name` is the `"Week i"` label; `week` is
the assessment's week-start timestamp (the source renders it as a formatted
date label); `vals` holds the per-metric-type scores. -/
structure WeeklyData where
  name : String
  week : Int
  vals : String → Option ℚ

/-- Sort step `[...assessments].sort((a, b) => a.weekStart - b.weekStart)`:
JavaScript's `Array.prototype.sort` is stable, so it is modelled by the
stable insertion sort on the week-start key. -/
def sortAssessments (l : List PerformanceAssessment) :
    List PerformanceAssessment :=
  List.insertionSort (fun a b => a.weekStart ≤ b.weekStart) l

/-- The `chartData` computation of the line-chart component
(`PerformanceChart.tsx` lines 49-128): sort the assessments by week start,
then produce one `WeeklyData` row per assessment week. -/
def chartData (assessments : List PerformanceAssessment)
    (metrics : List PerformanceMetric) : List WeeklyData :=
  let sorted := sortAssessments assessments
  sorted.enum.map (fun p =>
    { name := "Week " ++ toString (p.1 + 1)
      week := p.2.weekStart
      vals := dataPointVals sorted.length p.1 metrics
        (metrics.filter (fun m => m.assessmentId == p.2.id)) })

/-- Variant of `chartData` with the ambient source of randomness made explicit: the
stream `g` stands for the successive values `Math.random()` would return.
The weekly-series derivation (lines 49-128) contains no `Math.random` call
(unlike the radar-chart variant's `generatePreviousValue` in the same file),
so the stream is never consumed. -/
def chartDataRand (_g : ℕ → ℚ) (assessments : List PerformanceAssessment)
    (metrics : List PerformanceMetric) : List WeeklyData :=
  chartData assessments metrics

/-- The score of the chart data at week position `i` and metric type `t`
(`none` when the position is out of range or the week has no data point for
`t`). -/
def valsAt (l : List WeeklyData) (i : ℕ) (t : String) : Option ℚ :=
  match l.get? i with
  | some w => w.vals t
  | none => none

/- Section: Specification-side definitions.
Definitions written from the claims' wording, to be compared with the
operational definitions above. -/

/-- The per-assessment effect the clear phase of `createAssessment` is
claimed to have: an assessment owned by the player with a set current flag
is flipped to not-current, every other assessment is untouched. -/
def clearCurrent (playerId : Nat) (a : PerformanceAssessment) :
    PerformanceAssessment :=
  if a.playerId = playerId ∧ a.isLatest = true then { a with isLatest := false }
  else a

/-- The record `createAssessment` inserts: the insert shape plus the next
generated identity. -/
def newAssessment (st : MemStorage) (ins : InsertPerformanceAssessment) :
    PerformanceAssessment :=
  { id := st.assessmentCurrentId, playerId := ins.playerId,
    weekStart := ins.weekStart, weekEnd := ins.weekEnd, notes := ins.notes,
    isLatest := ins.isLatest }

/-- Well-formedness of the assessment collection, true of every reachable
`MemStorage` state: the keys of a JavaScript `Map` are unique, and every
stored identity is strictly below the identity counter (ids are handed out
by the counter, which only grows). -/
def WFAssessments (st : MemStorage) : Prop :=
  (∀ a ∈ st.assessments, a.id < st.assessmentCurrentId) ∧
  st.assessments.Pairwise (fun a b => a.id ≠ b.id)

/-- Well-formedness of the player collection (same reading). -/
def WFPlayers (st : MemStorage) : Prop :=
  (∀ p ∈ st.players, p.id < st.playerCurrentId) ∧
  st.players.Pairwise (fun a b => a.id ≠ b.id)

/-- The player's assessments currently flagged current, in insertion order. -/
def currentFor (st : MemStorage) (playerId : Nat) :
    List PerformanceAssessment :=
  st.assessments.filter (fun a => a.playerId == playerId && a.isLatest)

/-- Run a sequence of `createAssessment` calls. -/
def applyAssessments (st : MemStorage) (l : List InsertPerformanceAssessment) :
    MemStorage :=
  l.foldl createAssessmentState st

/-- The retention predicate claim C3 describes: a video is kept exactly when
its tag equals the criterion value for each criterion that is present and
differs from its "all" sentinel. -/
def claimMatches (f : VideoFilters) (v : Video) : Bool :=
  (match f.shotType with
   | some s => if s ≠ "All Shot Types" then v.shotType == some s else true
   | none => true) &&
  (match f.ballSpeed with
   | some s => if s ≠ "All Speeds" then v.ballSpeed == some s else true
   | none => true) &&
  (match f.batConnect with
   | some s => if s ≠ "All" then v.batConnect == some s else true
   | none => true)

/-- The retention predicate the code actually applies: as `claimMatches`,
but a present-yet-empty criterion (`""`, falsy in JavaScript) is also
treated as absent. -/
def codeMatches (f : VideoFilters) (v : Video) : Bool :=
  (match f.shotType with
   | some s => if s ≠ "" ∧ s ≠ "All Shot Types" then v.shotType == some s else true
   | none => true) &&
  (match f.ballSpeed with
   | some s => if s ≠ "" ∧ s ≠ "All Speeds" then v.ballSpeed == some s else true
   | none => true) &&
  (match f.batConnect with
   | some s => if s ≠ "" ∧ s ≠ "All" then v.batConnect == some s else true
   | none => true)

/- Section: Concrete sample data -/

/-- An otherwise empty store, for building sample states. -/
def emptyStorage : MemStorage :=
  { users := [], players := [], assessments := [], metrics := [], videos := [],
    problemAreas := [], userCurrentId := 1, playerCurrentId := 1,
    assessmentCurrentId := 1, metricCurrentId := 1, videoCurrentId := 1,
    problemAreaCurrentId := 1 }

/-- A store whose assessment collection violates the zero-or-one invariant:
player 1 owns two assessments both flagged current. -/
def exStViolating : MemStorage :=
  { emptyStorage with
    assessments :=
      [⟨1, 1, 0, 6, none, true⟩, ⟨2, 1, 7, 13, none, true⟩,
       ⟨3, 2, 0, 6, none, true⟩],
    assessmentCurrentId := 4 }

/-- A store satisfying the zero-or-one invariant. -/
def exStOk : MemStorage :=
  { emptyStorage with
    assessments :=
      [⟨1, 1, 0, 6, none, false⟩, ⟨2, 1, 7, 13, none, true⟩,
       ⟨3, 2, 0, 6, none, true⟩],
    assessmentCurrentId := 4 }

/-- A sample insert flagged current. -/
def exIns : InsertPerformanceAssessment := ⟨1, 14, 20, none, true⟩

/-- A second sample insert flagged current. -/
def exIns2 : InsertPerformanceAssessment := ⟨1, 21, 27, none, true⟩

/-- The two videos of the spec's filter scenario: tagged
`{Cover Drive, Fast, Middle}` and `{Pull Shot, Slow, Edge}`. -/
def exVid1 : Video :=
  ⟨1, 1, "Cover Drive", "/assets/v1.mp4", 0, some "Cover Drive", none,
   some "Fast", some "Middle"⟩

/-- See `exVid1`. -/
def exVid2 : Video :=
  ⟨2, 1, "Pull Shot", "/assets/v2.mp4", 0, some "Pull Shot", none,
   some "Slow", some "Edge"⟩

/-- A store holding the scenario's two videos for player 1. -/
def exStVideos : MemStorage :=
  { emptyStorage with videos := [exVid1, exVid2], videoCurrentId := 3 }

/-- A sample player record. -/
def exPlayer : Player :=
  ⟨1, "Rajiv Sharma", "Morning Batch", none, none, some 17, none, none, none,
   none, none, none, none, some "Right", some "improving", some 0⟩

/-- A store holding the sample player. -/
def exStPlayers : MemStorage :=
  { emptyStorage with players := [exPlayer], playerCurrentId := 2 }

/-- A partial update supplying a new age and a null status. -/
def exUpd : PlayerUpdate :=
  { PlayerUpdate.empty with age := some (some 18), status := some none }

/-- Week-1 assessment of the aggregation example (id 1). -/
def exA1 : PerformanceAssessment := ⟨1, 1, 0, 6, none, false⟩

/-- Week-2 assessment of the aggregation example (id 2). -/
def exA2 : PerformanceAssessment := ⟨2, 1, 7, 13, none, true⟩

/-- Week-1 `"bat_connect"` metric with rating 3. -/
def exM1 : PerformanceMetric := ⟨1, 1, "bat_connect", 3, none, none, none⟩

/-- Week-1 `"bat_connect"` metric with rating 5. -/
def exM2 : PerformanceMetric := ⟨2, 1, "bat_connect", 5, none, none, none⟩

/-- Week-2 `"bat_connect"` metric with rating 4. -/
def exM3 : PerformanceMetric := ⟨3, 2, "bat_connect", 4, none, none, none⟩

/-- Week-1 `"bat_connect"` metric with rating 0 (falsy in JavaScript). -/
def exM0 : PerformanceMetric := ⟨1, 1, "bat_connect", 0, none, none, none⟩

/- Section: Helper lemmas about `mapSet` and keyed lists -/

theorem mapSet_append {α : Type} (key : α → Nat) (l : List α) (k : Nat) (v : α)
    (h : ∀ a ∈ l, key a ≠ k) : mapSet key l k v = l ++ [v] := by
  induction l with
  | nil => rfl
  | cons a l ih =>
    simp only [mapSet]
    rw [if_neg (h a (List.mem_cons_self a l)),
        ih (fun b hb => h b (List.mem_cons_of_mem a hb))]
    rfl

theorem mapSet_eq_map {α : Type} (key : α → Nat) (l : List α) (x v : α)
    (hp : l.Pairwise (fun a b => key a ≠ key b)) (hx : x ∈ l) :
    mapSet key l (key x) v
      = l.map (fun a => if key a = key x then v else a) := by
  induction l with
  | nil => cases hx
  | cons a l ih =>
    rw [List.pairwise_cons] at hp
    simp only [mapSet, List.map]
    by_cases h : key a = key x
    · rw [if_pos h, if_pos h]
      have hrest : ∀ b ∈ l, (if key b = key x then v else b) = b := by
        intro b hb
        rw [if_neg]
        intro hkb
        exact hp.1 b hb (h.trans hkb.symm)
      rw [(List.map_congr_left hrest).trans (List.map_id l)]
    · rw [if_neg h, if_neg h]
      have hx' : x ∈ l := by
        rcases List.mem_cons.mp hx with he | h'
        · exact absurd (congrArg key he.symm) h
        · exact h'
      rw [ih hp.2 hx']

theorem eq_of_key_eq {α : Type} (key : α → Nat) {l : List α}
    (hp : l.Pairwise (fun a b => key a ≠ key b))
    {a b : α} (ha : a ∈ l) (hb : b ∈ l) (hk : key a = key b) : a = b := by
  induction l with
  | nil => cases ha
  | cons c l ih =>
    rw [List.pairwise_cons] at hp
    rcases List.mem_cons.mp ha with rfl | ha' <;>
      rcases List.mem_cons.mp hb with rfl | hb'
    · rfl
    · exact absurd hk (hp.1 b hb')
    · exact absurd hk.symm (hp.1 a ha')
    · exact ih hp.2 ha' hb'

theorem foldl_if_filter {α β : Type} (p : β → Bool) (f : α → β → α) :
    ∀ (s : List β) (init : α),
      s.foldl (fun acc x => if p x then f acc x else acc) init
        = (s.filter p).foldl f init := by
  intro s
  induction s with
  | nil => intro init; rfl
  | cons x s ih =>
    intro init
    by_cases h : p x = true
    · simp only [List.filter_cons, h, if_pos, List.foldl_cons, ih]
    · simp only [List.filter_cons, h, List.foldl_cons, ih, if_neg,
        Bool.false_eq_true, not_false_eq_true, if_false]

/- Section: Helper lemmas about `clearCurrent` -/

theorem clearCurrent_id (pid : Nat) (a : PerformanceAssessment) :
    (clearCurrent pid a).id = a.id := by
  unfold clearCurrent; split <;> rfl

theorem clearCurrent_playerId (pid : Nat) (a : PerformanceAssessment) :
    (clearCurrent pid a).playerId = a.playerId := by
  unfold clearCurrent; split <;> rfl

theorem clearCurrent_weekStart (pid : Nat) (a : PerformanceAssessment) :
    (clearCurrent pid a).weekStart = a.weekStart := by
  unfold clearCurrent; split <;> rfl

theorem clearCurrent_weekEnd (pid : Nat) (a : PerformanceAssessment) :
    (clearCurrent pid a).weekEnd = a.weekEnd := by
  unfold clearCurrent; split <;> rfl

theorem clearCurrent_notes (pid : Nat) (a : PerformanceAssessment) :
    (clearCurrent pid a).notes = a.notes := by
  unfold clearCurrent; split <;> rfl

theorem clearCurrent_of_ne (pid : Nat) (a : PerformanceAssessment)
    (h : a.playerId ≠ pid) : clearCurrent pid a = a := by
  unfold clearCurrent
  rw [if_neg]
  rintro ⟨h1, _⟩
  exact h h1

theorem clearCurrent_pred_false (pid : Nat) (a : PerformanceAssessment) :
    (((clearCurrent pid a).playerId == pid) && (clearCurrent pid a).isLatest)
      = false := by
  unfold clearCurrent
  split
  · next h => simp
  · next h =>
    rw [not_and_or] at h
    rcases h with h | h
    · simp [h]
    · simp only [Bool.and_eq_false_iff]
      right
      exact Bool.not_eq_true a.isLatest |>.mp h ▸ rfl

/- Section: The clear-then-set loop of `createAssessment` -/

theorem clearLoop_eq_map (pid : Nat) :
    ∀ (s l : List PerformanceAssessment),
      (∀ x ∈ s, x ∈ l ∧ x.playerId = pid ∧ x.isLatest = true) →
      l.Pairwise (fun a b => a.id ≠ b.id) →
      s.Pairwise (fun a b => a.id ≠ b.id) →
      (∀ x ∈ l, x.playerId = pid → x.isLatest = true → x ∈ s) →
      s.foldl
        (fun acc x => mapSet (fun y => y.id) acc x.id { x with isLatest := false })
        l
        = l.map (clearCurrent pid)
  | [], l, _, _, _, hcompl => by
    simp only [List.foldl_nil]
    have h0 : ∀ a ∈ l, clearCurrent pid a = a := by
      intro a ha
      unfold clearCurrent
      rw [if_neg]
      rintro ⟨h1, h2⟩
      exact absurd (hcompl a ha h1 h2) (List.not_mem_nil a)
    exact ((List.map_congr_left fun a ha => (h0 a ha).trans rfl).trans
      (List.map_id l)).symm
  | x :: s, l, hmem, hl, hs, hcompl => by
    obtain ⟨hx, hxp, hxl⟩ := hmem x (List.mem_cons_self x s)
    rw [List.pairwise_cons] at hs
    simp only [List.foldl_cons]
    have hms := mapSet_eq_map (fun y => y.id) l x { x with isLatest := false } hl hx
    rw [hms]
    have hgid : ∀ a : PerformanceAssessment,
        ((if a.id = x.id then { x with isLatest := false } else a) : PerformanceAssessment).id
          = a.id := by
      intro a
      split
      · next h => exact h.symm
      · rfl
    have hmem' : ∀ y ∈ s,
        y ∈ l.map (fun a => if a.id = x.id then { x with isLatest := false } else a)
          ∧ y.playerId = pid ∧ y.isLatest = true := by
      intro y hy
      obtain ⟨hyl, hyp, hyl2⟩ := hmem y (List.mem_cons_of_mem x hy)
      refine ⟨List.mem_map.mpr ⟨y, hyl, ?_⟩, hyp, hyl2⟩
      rw [if_neg]
      intro hcon
      exact hs.1 y hy hcon.symm
    have hl' :
        (l.map (fun a => if a.id = x.id then { x with isLatest := false } else a)).Pairwise
          (fun a b => a.id ≠ b.id) := by
      rw [List.pairwise_map]
      refine hl.imp ?_
      intro a b hab
      rw [hgid a, hgid b]
      exact hab
    have hcompl' : ∀ y ∈ l.map (fun a => if a.id = x.id then { x with isLatest := false } else a),
        y.playerId = pid → y.isLatest = true → y ∈ s := by
      intro y hy hyp hylat
      obtain ⟨a, hal, rfl⟩ := List.mem_map.mp hy
      by_cases hid : a.id = x.id
      · rw [if_pos hid] at hylat
        cases hylat
      · rw [if_neg hid] at hyp hylat ⊢
        rcases List.mem_cons.mp (hcompl a hal hyp hylat) with rfl | h'
        · exact absurd rfl hid
        · exact h'
    rw [clearLoop_eq_map pid s _ hmem' hl' hs.2 hcompl', List.map_map]
    refine List.map_congr_left ?_
    intro a ha
    by_cases hid : a.id = x.id
    · have hax : a = x := eq_of_key_eq (fun y => y.id) hl ha hx hid
      subst hax
      show clearCurrent pid (if a.id = a.id then { a with isLatest := false } else a)
        = clearCurrent pid a
      rw [if_pos rfl]
      unfold clearCurrent
      rw [if_neg (by rintro ⟨_, h⟩; cases h), if_pos ⟨hxp, hxl⟩]
    · show clearCurrent pid (if a.id = x.id then { x with isLatest := false } else a)
        = clearCurrent pid a
      rw [if_neg hid]

/- Section: Characterization of `createAssessment` -/

theorem createAssessment_fst (st : MemStorage) (ins : InsertPerformanceAssessment) :
    (createAssessment st ins).1 = newAssessment st ins := rfl

theorem createAssessment_counter (st : MemStorage) (ins : InsertPerformanceAssessment) :
    (createAssessmentState st ins).assessmentCurrentId
      = st.assessmentCurrentId + 1 := rfl

theorem createAssessment_assessments (st : MemStorage)
    (ins : InsertPerformanceAssessment) (hwf : WFAssessments st) :
    (createAssessmentState st ins).assessments
      = (if ins.isLatest = true
         then st.assessments.map (clearCurrent ins.playerId)
         else st.assessments) ++ [newAssessment st ins] := by
  obtain ⟨hlt, hpw⟩ := hwf
  have hclear :
      (if ins.isLatest = true then
        List.foldl
          (fun acc a =>
            if a.isLatest then
              mapSet (fun x => x.id) acc a.id { a with isLatest := false }
            else acc)
          st.assessments (getPlayerAssessments st ins.playerId)
      else st.assessments)
      = (if ins.isLatest = true
         then st.assessments.map (clearCurrent ins.playerId)
         else st.assessments) := by
    by_cases hins : ins.isLatest = true
    · rw [if_pos hins, if_pos hins,
        foldl_if_filter (fun a : PerformanceAssessment => a.isLatest)
          (fun (acc : List PerformanceAssessment) (a : PerformanceAssessment) =>
            mapSet (fun x : PerformanceAssessment => x.id) acc a.id
              { a with isLatest := false })
          (getPlayerAssessments st ins.playerId) st.assessments]
      refine clearLoop_eq_map ins.playerId _ st.assessments ?_ hpw ?_ ?_
      · intro x hx
        simp only [getPlayerAssessments, List.mem_filter, beq_iff_eq] at hx
        exact ⟨hx.1.1, hx.1.2, hx.2⟩
      · exact List.Pairwise.sublist
          ((List.filter_sublist _).trans (List.filter_sublist _)) hpw
      · intro x hx hxp hxl
        simp only [getPlayerAssessments, List.mem_filter, beq_iff_eq]
        exact ⟨⟨hx, hxp⟩, hxl⟩
    · rw [if_neg hins, if_neg hins]
  have hfresh :
      ∀ a ∈ (if ins.isLatest = true
             then st.assessments.map (clearCurrent ins.playerId)
             else st.assessments), a.id ≠ st.assessmentCurrentId := by
    split
    · intro a ha
      obtain ⟨b, hb, rfl⟩ := List.mem_map.mp ha
      rw [clearCurrent_id]
      exact Nat.ne_of_lt (hlt b hb)
    · intro a ha
      exact Nat.ne_of_lt (hlt a ha)
  show mapSet (fun x : PerformanceAssessment => x.id) _ st.assessmentCurrentId
      (newAssessment st ins) = _
  rw [hclear, mapSet_append (fun x : PerformanceAssessment => x.id) _
      st.assessmentCurrentId (newAssessment st ins) hfresh]

theorem wfAssessments_createAssessment (st : MemStorage)
    (ins : InsertPerformanceAssessment) (hwf : WFAssessments st) :
    WFAssessments (createAssessmentState st ins) := by
  obtain ⟨hlt, hpw⟩ := hwf
  have hchar := createAssessment_assessments st ins ⟨hlt, hpw⟩
  have hbaselt :
      ∀ a ∈ (if ins.isLatest = true
             then st.assessments.map (clearCurrent ins.playerId)
             else st.assessments), a.id < st.assessmentCurrentId := by
    split
    · intro a ha
      obtain ⟨b, hb, rfl⟩ := List.mem_map.mp ha
      rw [clearCurrent_id]
      exact hlt b hb
    · exact hlt
  constructor
  · intro a ha
    rw [hchar] at ha
    rw [createAssessment_counter]
    rcases List.mem_append.mp ha with h | h
    · exact Nat.lt_succ_of_lt (hbaselt a h)
    · rw [List.mem_singleton.mp h]
      exact Nat.lt_succ_self _
  · rw [hchar, List.pairwise_append]
    refine ⟨?_, List.pairwise_singleton _ _, ?_⟩
    · split
      · rw [List.pairwise_map]
        refine hpw.imp ?_
        intro a b hab
        rw [clearCurrent_id, clearCurrent_id]
        exact hab
      · exact hpw
    · intro a ha b hb
      rw [List.mem_singleton.mp hb]
      exact Nat.ne_of_lt (hbaselt a ha)

theorem currentFor_createAssessment (st : MemStorage)
    (ins : InsertPerformanceAssessment) (hwf : WFAssessments st) (p : Nat) :
    currentFor (createAssessmentState st ins) p
      = if ins.isLatest = true ∧ p = ins.playerId
        then [newAssessment st ins]
        else currentFor st p := by
  have hchar := createAssessment_assessments st ins hwf
  unfold currentFor
  rw [hchar, List.filter_append]
  by_cases hins : ins.isLatest = true
  · by_cases hp : p = ins.playerId
    · rw [if_pos (And.intro hins hp), if_pos hins]
      have h1 : (st.assessments.map (clearCurrent ins.playerId)).filter
          (fun a => a.playerId == p && a.isLatest) = [] := by
        rw [List.filter_eq_nil_iff]
        intro a ha
        obtain ⟨b, _, rfl⟩ := List.mem_map.mp ha
        rw [hp]
        simp only [clearCurrent_pred_false, Bool.false_eq_true, not_false_eq_true]
      have h2 : ((newAssessment st ins).playerId == p
          && (newAssessment st ins).isLatest) = true := by
        show (ins.playerId == p && ins.isLatest) = true
        rw [hp, hins]
        simp
      rw [h1, List.filter_cons, if_pos h2]
      rfl
    · rw [if_neg (fun hc : ins.isLatest = true ∧ p = ins.playerId => hp hc.2),
        if_pos hins]
      have h2 : ((newAssessment st ins).playerId == p
          && (newAssessment st ins).isLatest) = false := by
        show (ins.playerId == p && ins.isLatest) = false
        simp only [Bool.and_eq_false_iff]
        left
        simp only [beq_eq_false_iff_ne, ne_eq]
        exact fun hc => hp hc.symm
      rw [List.filter_cons, if_neg (by rw [h2]; exact Bool.false_ne_true),
        List.filter_nil, List.append_nil, List.filter_map]
      have hcong : ∀ a ∈ st.assessments,
          ((fun x => x.playerId == p && x.isLatest) ∘ clearCurrent ins.playerId) a
            = (fun x => x.playerId == p && x.isLatest) a := by
        intro a _
        by_cases hap : a.playerId = ins.playerId
        · have hfalse : (a.playerId == p) = false := by
            simp only [beq_eq_false_iff_ne, ne_eq]
            intro hc
            exact hp (hc.symm.trans hap)
          simp only [Function.comp_apply, clearCurrent_playerId, hfalse,
            Bool.false_and]
        · rw [Function.comp_apply, clearCurrent_of_ne _ _ hap]
      rw [List.filter_congr hcong]
      have hid : ∀ a ∈ st.assessments.filter (fun x => x.playerId == p && x.isLatest),
          clearCurrent ins.playerId a = a := by
        intro a ha
        rw [List.mem_filter] at ha
        have : a.playerId = p := by
          have := ha.2
          simp only [Bool.and_eq_true, beq_iff_eq] at this
          exact this.1
        exact clearCurrent_of_ne _ _ (fun hc => hp ((hc ▸ this).symm ▸ rfl))
      exact (List.map_congr_left fun a ha => (hid a ha).trans rfl).trans
        (List.map_id _)
  · rw [if_neg (fun hc : ins.isLatest = true ∧ p = ins.playerId => hins hc.1),
      if_neg hins]
    have h2 : ((newAssessment st ins).playerId == p
        && (newAssessment st ins).isLatest) = false := by
      show (ins.playerId == p && ins.isLatest) = false
      simp only [Bool.and_eq_false_iff]
      right
      exact Bool.not_eq_true ins.isLatest |>.mp hins ▸ rfl
    rw [List.filter_cons, if_neg (by rw [h2]; exact Bool.false_ne_true),
      List.filter_nil, List.append_nil]

/- Section: Video filter lemmas -/

theorem filter_idem {α : Type} (p : α → Bool) (l : List α) :
    (l.filter p).filter p = l.filter p := by
  rw [List.filter_filter]
  exact List.filter_congr (fun a _ => by cases p a <;> rfl)

theorem applyVideoFilters_eq_filter (f : VideoFilters) (l : List Video) :
    applyVideoFilters f l = l.filter (fun v => codeMatches f v) := by
  rcases f with ⟨so, bo, co⟩
  unfold applyVideoFilters codeMatches
  rcases so with _ | s1 <;> rcases bo with _ | s2 <;> rcases co with _ | s3 <;>
    dsimp only <;> (try split_ifs) <;>
    simp [List.filter_filter, Bool.and_comm, Bool.and_assoc, Bool.and_left_comm]

/- Section: Lookup lemmas for `updatePlayer` -/

theorem find?_key_eq {α : Type} (key : α → Nat) {l : List α}
    (hp : l.Pairwise (fun a b => key a ≠ key b)) {x : α} (hx : x ∈ l) :
    l.find? (fun a => key a == key x) = some x := by
  induction l with
  | nil => cases hx
  | cons a l ih =>
    rw [List.pairwise_cons] at hp
    by_cases h : key a = key x
    · have hax : a = x := by
        rcases List.mem_cons.mp hx with rfl | hx'
        · rfl
        · exact absurd h (hp.1 x hx')
      rw [List.find?_cons_of_pos _ (by simp [h]), hax]
    · have hx' : x ∈ l := by
        rcases List.mem_cons.mp hx with rfl | hx'
        · exact absurd rfl h
        · exact hx'
      rw [List.find?_cons_of_neg _ (by simp [h]), ih hp.2 hx']

theorem updatePlayer_found (st : MemStorage) (u : PlayerUpdate) (p : Player)
    (hwf : WFPlayers st) (hp : p ∈ st.players) :
    updatePlayer st p.id u
      = (some (mergePlayer p u),
         { st with players :=
            st.players.map (fun q => if q.id = p.id then mergePlayer p u else q) }) := by
  obtain ⟨_, hpw⟩ := hwf
  have hfind : st.players.find? (fun q => q.id == p.id) = some p :=
    find?_key_eq (fun q : Player => q.id) hpw hp
  have hm := mapSet_eq_map (fun x : Player => x.id) st.players p (mergePlayer p u)
    hpw hp
  unfold updatePlayer
  rw [hfind]
  dsimp only
  rw [show mapSet (fun x : Player => x.id) st.players p.id (mergePlayer p u)
      = st.players.map (fun q => if q.id = p.id then mergePlayer p u else q)
    from hm]

theorem updatePlayer_notFound (st : MemStorage) (pid : Nat) (u : PlayerUpdate)
    (h : ∀ p ∈ st.players, p.id ≠ pid) :
    updatePlayer st pid u = (none, st) := by
  have hfind : st.players.find? (fun q => q.id == pid) = none := by
    rw [List.find?_eq_none]
    intro x hx
    simp only [beq_iff_eq]
    exact h x hx
  unfold updatePlayer
  rw [hfind]

/- Section: Stability and order of the assessment sort -/

instance : IsTotal PerformanceAssessment (fun a b => a.weekStart ≤ b.weekStart) :=
  ⟨fun a b => Int.le_total a.weekStart b.weekStart⟩

instance : IsTrans PerformanceAssessment (fun a b => a.weekStart ≤ b.weekStart) :=
  ⟨fun _ _ _ hab hbc => le_trans hab hbc⟩

theorem filter_orderedInsert_pos {α : Type} (key : α → Int) (k : Int) (x : α)
    (hk : key x = k) :
    ∀ m : List α,
      (List.orderedInsert (fun a b => key a ≤ key b) x m).filter
          (fun y => key y == k)
        = x :: m.filter (fun y => key y == k)
  | [] => by simp [List.orderedInsert, List.filter, hk]
  | b :: m => by
    simp only [List.orderedInsert]
    split
    · rw [List.filter_cons, if_pos (by simp [hk])]
    · next hle =>
      have hbk : (key b == k) = false := by
        simp only [beq_eq_false_iff_ne, ne_eq]
        intro hc
        exact hle (le_of_eq (hk ▸ hc ▸ rfl))
      rw [List.filter_cons, if_neg (by rw [hbk]; exact Bool.false_ne_true),
        filter_orderedInsert_pos key k x hk m,
        List.filter_cons, if_neg (by rw [hbk]; exact Bool.false_ne_true)]

theorem filter_orderedInsert_neg {α : Type} (key : α → Int) (k : Int) (x : α)
    (hk : key x ≠ k) :
    ∀ m : List α,
      (List.orderedInsert (fun a b => key a ≤ key b) x m).filter
          (fun y => key y == k)
        = m.filter (fun y => key y == k)
  | [] => by
    have hb : (key x == k) = false := by simp [hk]
    simp [List.orderedInsert, List.filter, hb]
  | b :: m => by
    simp only [List.orderedInsert]
    split
    · rw [List.filter_cons, if_neg (by simp [hk])]
    · rw [List.filter_cons, filter_orderedInsert_neg key k x hk m,
        List.filter_cons]

theorem insertionSort_stable_key {α : Type} (key : α → Int) (k : Int)
    (l : List α) :
    (List.insertionSort (fun a b => key a ≤ key b) l).filter
        (fun y => key y == k)
      = l.filter (fun y => key y == k) := by
  induction l with
  | nil => rfl
  | cons x l ih =>
    simp only [List.insertionSort]
    by_cases hk : key x = k
    · rw [filter_orderedInsert_pos key k x hk, ih, List.filter_cons,
        if_pos (by simp [hk])]
    · rw [filter_orderedInsert_neg key k x hk, ih, List.filter_cons,
        if_neg (by simp [hk])]

/- Section: Chart data lemmas -/

theorem chartData_get? (a : List PerformanceAssessment)
    (m : List PerformanceMetric) (i : ℕ) :
    (chartData a m).get? i
      = ((sortAssessments a).get? i).map (fun x =>
          { name := "Week " ++ toString (i + 1), week := x.weekStart,
            vals := dataPointVals (sortAssessments a).length i m
              (m.filter (fun mm => mm.assessmentId == x.id)) }) := by
  unfold chartData
  simp only [List.get?_map, List.get?_enum, Option.map_map]
  cases (sortAssessments a).get? i <;> rfl

theorem valsAt_chartData (a : List PerformanceAssessment)
    (m : List PerformanceMetric) (i : ℕ) (t : String)
    (x : PerformanceAssessment) (hx : (sortAssessments a).get? i = some x) :
    valsAt (chartData a m) i t
      = dataPointVals (sortAssessments a).length i m
          (m.filter (fun mm => mm.assessmentId == x.id)) t := by
  unfold valsAt
  rw [chartData_get?, hx]
  rfl

theorem dataPointVals_of_present (n i : ℕ)
    (metrics wk : List PerformanceMetric) (t : String)
    (hne : ratingsFor wk t ≠ [])
    (h : avgScore (ratingsFor wk t) ≠ 0 ∨ ¬(i < n - 1) ∨ t ∉ metricNamesKeys) :
    dataPointVals n i metrics wk t = some (avgScore (ratingsFor wk t)) := by
  have hE : (ratingsFor wk t).isEmpty = false := by
    cases hL : ratingsFor wk t
    · exact absurd hL hne
    · rfl
  unfold dataPointVals
  simp only [hE, Bool.false_eq_true, if_false]
  by_cases hio : i < n - 1
  · rw [if_pos hio, if_neg]
    rintro ⟨htk, hor⟩
    rcases hor with hc | hc
    · cases hc
    · rcases h with h | h | h
      · exact h (Option.some_injective ℚ hc)
      · exact h hio
      · exact h htk
  · rw [if_neg hio]

theorem dataPointVals_of_missing (n i : ℕ)
    (metrics wk : List PerformanceMetric) (t : String)
    (hempty : ratingsFor wk t = []) :
    dataPointVals n i metrics wk t
      = if i < n - 1 ∧ t ∈ metricNamesKeys
        then some ((estimatedRating n i (latestKnown metrics t) : ℚ))
        else none := by
  unfold dataPointVals
  simp only [hempty, List.isEmpty_nil, if_true, eq_self_iff_true, true_or,
    and_true]
  by_cases hio : i < n - 1
  · by_cases htk : t ∈ metricNamesKeys
    · rw [if_pos hio, if_pos htk, if_pos (And.intro hio htk)]
    · rw [if_pos hio, if_neg htk,
        if_neg (fun hc : i < n - 1 ∧ t ∈ metricNamesKeys => htk hc.2)]
  · rw [if_neg hio, if_neg (fun hc : i < n - 1 ∧ t ∈ metricNamesKeys => hio hc.1)]

/- Section: Invariant preservation along sequences of calls -/

theorem applyAssessments_inv (l : List InsertPerformanceAssessment) :
    ∀ st : MemStorage, WFAssessments st →
      (∀ p, (currentFor st p).length ≤ 1) →
      ∀ p, (currentFor (applyAssessments st l) p).length ≤ 1 := by
  induction l with
  | nil => exact fun st _ hinv => hinv
  | cons ins l ih =>
    intro st hwf hinv
    have hwf' := wfAssessments_createAssessment st ins hwf
    have hinv' : ∀ p, (currentFor (createAssessmentState st ins) p).length ≤ 1 := by
      intro p
      rw [currentFor_createAssessment st ins hwf p]
      split
      · exact le_refl 1
      · exact hinv p
    exact ih (createAssessmentState st ins) hwf' hinv'

theorem exStOk_inv : ∀ p, (currentFor exStOk p).length ≤ 1 := by
  intro p
  by_cases h1 : p = 1
  · subst h1; decide
  · by_cases h2 : p = 2
    · subst h2; decide
    · have b1 : ((1 : Nat) == p) = false := by
        simp only [beq_eq_false_iff_ne, ne_eq]
        exact fun hc => h1 hc.symm
      have b2 : ((2 : Nat) == p) = false := by
        simp only [beq_eq_false_iff_ne, ne_eq]
        exact fun hc => h2 hc.symm
      show (List.filter _ _).length ≤ 1
      simp [currentFor, exStOk, emptyStorage, List.filter, b1, b2]

/- Section: Claims -/

/-- C1. From any well-formed state: (i) if every player has at most one
current assessment, then after any sequence of `createAssessment` calls
every player still has at most one; (ii) after a `createAssessment` call
flagged current, the player's current assessments are exactly the newly
inserted (returned) record, however many were current before. -/
theorem createAssessment_atMostOneCurrent (st : MemStorage)
    (hwf : WFAssessments st) :
    ((∀ p, (currentFor st p).length ≤ 1) →
      ∀ l : List InsertPerformanceAssessment, ∀ p,
        (currentFor (applyAssessments st l) p).length ≤ 1)
    ∧ (∀ ins : InsertPerformanceAssessment, ins.isLatest = true →
        currentFor (createAssessmentState st ins) ins.playerId
          = [(createAssessment st ins).1]) := by
  constructor
  · intro hinv l
    exact applyAssessments_inv l st hwf hinv
  · intro ins hins
    rw [currentFor_createAssessment st ins hwf ins.playerId,
      if_pos (And.intro hins rfl)]
    rfl

/-- Witness for C1 at concrete states: a clean two-insert run keeps the
invariant, and inserting into a state with two current assessments for
player 1 leaves exactly the new record current. -/
theorem createAssessment_atMostOneCurrent_witness :
    (currentFor (applyAssessments exStOk [exIns, exIns2]) 1).length ≤ 1
    ∧ currentFor (createAssessmentState exStViolating exIns) 1
        = [(createAssessment exStViolating exIns).1] :=
  ⟨(createAssessment_atMostOneCurrent exStOk ⟨by decide, by decide⟩).1 exStOk_inv
      [exIns, exIns2] 1,
   (createAssessment_atMostOneCurrent exStViolating ⟨by decide, by decide⟩).2
      exIns rfl⟩

/-- C2. `createAssessment` is clear-then-set: the returned record is the
insert shape under the fresh identity with the requested flag; when the
insert is flagged current, the final collection is the prior one with
*every* current flag of the player cleared (even if several were set),
followed by the new record; when not flagged, the prior collection is
untouched and the new record appended. -/
theorem createAssessment_clearThenSet (st : MemStorage)
    (ins : InsertPerformanceAssessment) (hwf : WFAssessments st) :
    (createAssessment st ins).1 = newAssessment st ins
    ∧ (newAssessment st ins).isLatest = ins.isLatest
    ∧ (createAssessmentState st ins).assessments
        = (if ins.isLatest = true
           then st.assessments.map (clearCurrent ins.playerId)
           else st.assessments) ++ [newAssessment st ins] :=
  ⟨rfl, rfl, createAssessment_assessments st ins hwf⟩

/-- Witness for C2 at a state violating zero-or-one: both stale flags of
player 1 are cleared before the insert. -/
theorem createAssessment_clearThenSet_witness :
    (createAssessmentState exStViolating exIns).assessments
      = exStViolating.assessments.map (clearCurrent 1)
        ++ [newAssessment exStViolating exIns] := by
  have h := (createAssessment_clearThenSet exStViolating exIns
    ⟨by decide, by decide⟩).2.2
  simpa [exIns] using h

/-- C3, corrected. `getFilteredVideos` keeps exactly the player's
videos matching every *truthy*, non-sentinel criterion, in listing order;
a present but empty-string criterion is (unlike the claim's wording)
treated as absent, because the code tests JavaScript truthiness first.
The spec's filter scenario also holds. -/
theorem getFilteredVideos_matches (st : MemStorage) (pid : Nat)
    (f : VideoFilters) :
    getFilteredVideos st pid f
      = (getPlayerVideos st pid).filter (fun v => codeMatches f v)
    ∧ getFilteredVideos exStVideos 1 ⟨some "Cover Drive", none, none⟩
        = [exVid1] :=
  ⟨applyVideoFilters_eq_filter f (getPlayerVideos st pid), by decide⟩

/-- Counterexample to C3 as stated: with the criterion `shotType = ""`
(present and distinct from the sentinel), the claim demands that only
videos whose tag equals `""` be kept, but the code skips the criterion
(empty strings are falsy) and returns both videos. -/
theorem getFilteredVideos_claim_counterexample :
    getFilteredVideos exStVideos 1 ⟨some "", none, none⟩
      ≠ (getPlayerVideos exStVideos 1).filter
          (fun v => claimMatches ⟨some "", none, none⟩ v) := by
  decide

/-- C4. Filtering is idempotent (re-applying the same criteria to a
result changes nothing) and the empty criteria object is the identity. -/
theorem getFilteredVideos_idempotent (st : MemStorage) (pid : Nat)
    (f : VideoFilters) :
    applyVideoFilters f (getFilteredVideos st pid f)
        = getFilteredVideos st pid f
    ∧ getFilteredVideos st pid VideoFilters.empty = getPlayerVideos st pid := by
  constructor
  · simp only [getFilteredVideos, applyVideoFilters_eq_filter, filter_idem]
  · rfl

/-- C5, corrected. For a week (position `i` on the sorted temporal
axis) and metric type with at least one rating, the chart's score is the
arithmetic mean of the ratings rounded to one decimal place — *provided*
the rounded mean is nonzero, or the week is the last, or the metric type is
not one of the six charted ones; a rounded mean of exactly `0` in an
earlier week is falsy in JavaScript and is overwritten by the simulated
progression value. -/
theorem chartData_weekScore_mean (a : List PerformanceAssessment)
    (m : List PerformanceMetric) (i : ℕ) (t : String)
    (x : PerformanceAssessment)
    (hx : (sortAssessments a).get? i = some x)
    (hne : ratingsFor (m.filter (fun mm => mm.assessmentId == x.id)) t ≠ [])
    (h : avgScore (ratingsFor (m.filter (fun mm => mm.assessmentId == x.id)) t) ≠ 0
         ∨ i = (sortAssessments a).length - 1 ∨ t ∉ metricNamesKeys) :
    valsAt (chartData a m) i t
      = some (avgScore
          (ratingsFor (m.filter (fun mm => mm.assessmentId == x.id)) t)) := by
  rw [valsAt_chartData a m i t x hx]
  refine dataPointVals_of_present _ _ _ _ _ hne ?_
  rcases h with h | h | h
  · exact Or.inl h
  · refine Or.inr (Or.inl ?_)
    intro hlt
    rw [h] at hlt
    exact lt_irrefl _ hlt
  · exact Or.inr (Or.inr h)

/-- Witness for C5: the spec's aggregation example — `"bat_connect"`
ratings `[3, 5]` in week 1 and `[4]` in week 2 yield score `4.0` in both
weeks. -/
theorem chartData_weekScore_mean_witness :
    valsAt (chartData [exA1, exA2] [exM1, exM2, exM3]) 0 "bat_connect" = some 4
    ∧ valsAt (chartData [exA1, exA2] [exM1, exM2, exM3]) 1 "bat_connect"
        = some 4 := by
  constructor
  · have h := chartData_weekScore_mean [exA1, exA2] [exM1, exM2, exM3] 0
      "bat_connect" exA1 (by decide) (by decide)
      (Or.inl (by with_unfolding_all decide))
    rw [h]
    with_unfolding_all decide
  · have h := chartData_weekScore_mean [exA1, exA2] [exM1, exM2, exM3] 1
      "bat_connect" exA2 (by decide) (by decide)
      (Or.inr (Or.inl (by decide)))
    rw [h]
    with_unfolding_all decide

/-- Counterexample to C5 as stated: a week-1 `"bat_connect"` rating of `0`
has mean `0.0`, but the chart shows the simulated value `2` for that pair,
because `0` is falsy and the week is not the last. -/
theorem chartData_mean_counterexample :
    valsAt (chartData [exA1, exA2] [exM0, exM3]) 0 "bat_connect"
      ≠ some (avgScore (ratingsFor
          ([exM0, exM3].filter (fun mm => mm.assessmentId == exA1.id))
          "bat_connect")) := by
  with_unfolding_all decide

/-- C6, corrected. For a week with zero ratings for a metric type, the
chart emits no data point only when the week is the last one or the metric
type is not one of the six charted ones; for any earlier week and charted
metric type, the code fabricates the simulated progression value instead of
leaving a gap. -/
theorem chartData_missingPolicy (a : List PerformanceAssessment)
    (m : List PerformanceMetric) (i : ℕ) (t : String)
    (x : PerformanceAssessment)
    (hx : (sortAssessments a).get? i = some x)
    (hempty : ratingsFor (m.filter (fun mm => mm.assessmentId == x.id)) t = []) :
    ((i = (sortAssessments a).length - 1 ∨ t ∉ metricNamesKeys) →
        valsAt (chartData a m) i t = none)
    ∧ (i < (sortAssessments a).length - 1 → t ∈ metricNamesKeys →
        valsAt (chartData a m) i t
          = some ((estimatedRating (sortAssessments a).length i
              (latestKnown m t) : ℚ))) := by
  rw [valsAt_chartData a m i t x hx,
    dataPointVals_of_missing _ _ _ _ _ hempty]
  constructor
  · intro hc
    rw [if_neg]
    rintro ⟨hio, htk⟩
    rcases hc with hc | hc
    · rw [hc] at hio
      exact lt_irrefl _ hio
    · exact hc htk
  · intro hio htk
    rw [if_pos (And.intro hio htk)]

/-- Witness for C6: with no week-1 metrics at all, week 1 still shows a
fabricated `"bat_connect"` value of `2`, while the final week's missing
`"straight_drive"` yields no data point. -/
theorem chartData_missingPolicy_witness :
    valsAt (chartData [exA1, exA2] [exM3]) 0 "bat_connect" = some 2
    ∧ valsAt (chartData [exA1, exA2] [exM3]) 1 "straight_drive" = none := by
  constructor
  · have h := (chartData_missingPolicy [exA1, exA2] [exM3] 0 "bat_connect"
      exA1 (by decide) (by decide)).2 (by decide) (by decide)
    rw [h]
    with_unfolding_all decide
  · exact (chartData_missingPolicy [exA1, exA2] [exM3] 1 "straight_drive"
      exA2 (by decide) (by decide)).1 (Or.inl (by decide))

/-- Counterexample to C6 as stated: week 1 has zero `"bat_connect"`
ratings, yet the chart holds a data point for that pair. -/
theorem chartData_fabrication_counterexample :
    ratingsFor ([exM3].filter (fun mm => mm.assessmentId == exA1.id))
        "bat_connect" = []
    ∧ valsAt (chartData [exA1, exA2] [exM3]) 0 "bat_connect" ≠ none := by
  with_unfolding_all decide

/-- C7. The weekly-series derivation is deterministic and independent
of the ambient source of randomness: with the stream of `Math.random`
results made explicit, any two streams (in particular, the streams seen by
two successive invocations over the same inputs) produce identical output.
It mutates nothing: it is a pure function of the assessment and metric
lists. -/
theorem chartDataRand_deterministic (g₁ g₂ : ℕ → ℚ)
    (a : List PerformanceAssessment) (m : List PerformanceMetric) :
    chartDataRand g₁ a m = chartDataRand g₂ a m := rfl

/-- C8. The temporal axis of the chart is the assessment list sorted
ascending by week start: the rows' weeks are the sorted week starts, the
sorted list is a permutation of the input, it is sorted by week start, and
the sort is stable — assessments with equal week starts keep their input
order (their filtered subsequence is unchanged). -/
theorem chartData_temporalAxis (a : List PerformanceAssessment)
    (m : List PerformanceMetric) :
    (chartData a m).map (fun w => w.week)
      = (sortAssessments a).map (fun x => x.weekStart)
    ∧ (sortAssessments a).Perm a
    ∧ List.Sorted (fun x y : PerformanceAssessment => x.weekStart ≤ y.weekStart)
        (sortAssessments a)
    ∧ ∀ k : Int, (sortAssessments a).filter (fun x => x.weekStart == k)
        = a.filter (fun x => x.weekStart == k) := by
  refine ⟨?_, List.perm_insertionSort _ a, List.sorted_insertionSort _ a,
    fun k => insertionSort_stable_key (fun x => x.weekStart) k a⟩
  unfold chartData
  rw [List.map_map]
  have h2 : (sortAssessments a).enum.map
      (fun p : ℕ × PerformanceAssessment => p.2.weekStart)
      = (sortAssessments a).map (fun x => x.weekStart) := by
    rw [show (fun p : ℕ × PerformanceAssessment => p.2.weekStart)
        = (fun x : PerformanceAssessment => x.weekStart) ∘ Prod.snd from rfl,
      ← List.map_map, List.enum_map_snd]
  exact h2

/-- C9. `updatePlayer` on an existing identity returns the record with
the supplied fields merged in (absent fields keep their prior value, the
identity is kept), replaces only that player's entry, and touches no other
collection; on a missing identity it returns `undefined` and leaves the
store entirely unchanged. -/
theorem updatePlayer_spec (st : MemStorage) (pid : Nat) (u : PlayerUpdate)
    (hwf : WFPlayers st) :
    (∀ p ∈ st.players, p.id = pid →
      (updatePlayer st pid u).1 = some (mergePlayer p u)
      ∧ (updatePlayer st pid u).2.players
          = st.players.map (fun q => if q.id = pid then mergePlayer p u else q)
      ∧ (updatePlayer st pid u).2.assessments = st.assessments
      ∧ (updatePlayer st pid u).2.videos = st.videos
      ∧ (updatePlayer st pid u).2.metrics = st.metrics
      ∧ (mergePlayer p u).id = p.id
      ∧ (u.name = none → (mergePlayer p u).name = p.name)
      ∧ (∀ v, u.name = some v → (mergePlayer p u).name = v)
      ∧ (u.batch = none → (mergePlayer p u).batch = p.batch)
      ∧ (∀ v, u.batch = some v → (mergePlayer p u).batch = v)
      ∧ (u.photoUrl = none → (mergePlayer p u).photoUrl = p.photoUrl)
      ∧ (∀ v, u.photoUrl = some v → (mergePlayer p u).photoUrl = v)
      ∧ (u.dateOfBirth = none → (mergePlayer p u).dateOfBirth = p.dateOfBirth)
      ∧ (∀ v, u.dateOfBirth = some v → (mergePlayer p u).dateOfBirth = v)
      ∧ (u.age = none → (mergePlayer p u).age = p.age)
      ∧ (∀ v, u.age = some v → (mergePlayer p u).age = v)
      ∧ (u.bio = none → (mergePlayer p u).bio = p.bio)
      ∧ (∀ v, u.bio = some v → (mergePlayer p u).bio = v)
      ∧ (u.battingStyle = none → (mergePlayer p u).battingStyle = p.battingStyle)
      ∧ (∀ v, u.battingStyle = some v → (mergePlayer p u).battingStyle = v)
      ∧ (u.bowlingStyle = none → (mergePlayer p u).bowlingStyle = p.bowlingStyle)
      ∧ (∀ v, u.bowlingStyle = some v → (mergePlayer p u).bowlingStyle = v)
      ∧ (u.specialization = none →
          (mergePlayer p u).specialization = p.specialization)
      ∧ (∀ v, u.specialization = some v → (mergePlayer p u).specialization = v)
      ∧ (u.yearsOfExperience = none →
          (mergePlayer p u).yearsOfExperience = p.yearsOfExperience)
      ∧ (∀ v, u.yearsOfExperience = some v →
          (mergePlayer p u).yearsOfExperience = v)
      ∧ (u.height = none → (mergePlayer p u).height = p.height)
      ∧ (∀ v, u.height = some v → (mergePlayer p u).height = v)
      ∧ (u.weight = none → (mergePlayer p u).weight = p.weight)
      ∧ (∀ v, u.weight = some v → (mergePlayer p u).weight = v)
      ∧ (u.dominantHand = none → (mergePlayer p u).dominantHand = p.dominantHand)
      ∧ (∀ v, u.dominantHand = some v → (mergePlayer p u).dominantHand = v)
      ∧ (u.status = none → (mergePlayer p u).status = p.status)
      ∧ (∀ v, u.status = some v → (mergePlayer p u).status = v)
      ∧ (u.joinedDate = none → (mergePlayer p u).joinedDate = p.joinedDate)
      ∧ (∀ v, u.joinedDate = some v → (mergePlayer p u).joinedDate = v))
    ∧ ((∀ p ∈ st.players, p.id ≠ pid) → updatePlayer st pid u = (none, st)) := by
  constructor
  · intro p hp hid
    subst hid
    rw [updatePlayer_found st u p hwf hp]
    refine ⟨rfl, rfl, rfl, rfl, rfl, rfl, ?_, ?_, ?_, ?_, ?_, ?_, ?_, ?_, ?_,
      ?_, ?_, ?_, ?_, ?_, ?_, ?_, ?_, ?_, ?_, ?_, ?_, ?_, ?_, ?_, ?_, ?_, ?_,
      ?_, ?_, ?_⟩ <;>
      first
      | (intro hv; simp [mergePlayer, hv])
      | (intro v hv; simp [mergePlayer, hv])
  · exact updatePlayer_notFound st pid u

/-- Witness for C9: merging a concrete partial update into the sample
player, and a miss on identity 5 leaving the store unchanged. -/
theorem updatePlayer_spec_witness :
    (updatePlayer exStPlayers 1 exUpd).1 = some (mergePlayer exPlayer exUpd)
    ∧ updatePlayer exStPlayers 5 exUpd = (none, exStPlayers) :=
  ⟨((updatePlayer_spec exStPlayers 1 exUpd ⟨by decide, by decide⟩).1 exPlayer
      (by decide) rfl).1,
   (updatePlayer_spec exStPlayers 5 exUpd ⟨by decide, by decide⟩).2
      (by decide)⟩

/-- C10. `createAssessment` only ever (a) rewrites the `isLatest` flag
of the given player's existing assessments — every other field, every other
player's record, and the listing order are untouched, and nothing is
removed — and (b) appends exactly one new record, the returned one, whose
identity is fresh. -/
theorem createAssessment_frame (st : MemStorage)
    (ins : InsertPerformanceAssessment) (hwf : WFAssessments st) :
    ∃ f : PerformanceAssessment → PerformanceAssessment,
      (createAssessmentState st ins).assessments
          = st.assessments.map f ++ [(createAssessment st ins).1]
      ∧ (∀ a, (f a).id = a.id ∧ (f a).playerId = a.playerId
            ∧ (f a).weekStart = a.weekStart ∧ (f a).weekEnd = a.weekEnd
            ∧ (f a).notes = a.notes)
      ∧ (∀ a, a.playerId ≠ ins.playerId → f a = a)
      ∧ (∀ a ∈ st.assessments, a.id ≠ (createAssessment st ins).1.id) := by
  have hchar := createAssessment_assessments st ins hwf
  by_cases hins : ins.isLatest = true
  · refine ⟨clearCurrent ins.playerId, ?_, ?_, ?_, ?_⟩
    · rw [hchar, if_pos hins]
      rfl
    · intro a
      exact ⟨clearCurrent_id _ a, clearCurrent_playerId _ a,
        clearCurrent_weekStart _ a, clearCurrent_weekEnd _ a,
        clearCurrent_notes _ a⟩
    · exact fun a ha => clearCurrent_of_ne _ a ha
    · intro a ha
      exact Nat.ne_of_lt (hwf.1 a ha)
  · refine ⟨id, ?_, ?_, ?_, ?_⟩
    · rw [hchar, if_neg hins, List.map_id]
      rfl
    · intro a
      exact ⟨rfl, rfl, rfl, rfl, rfl⟩
    · intro a _
      rfl
    · intro a ha
      exact Nat.ne_of_lt (hwf.1 a ha)

/-- Witness for C10 at a concrete state. -/
theorem createAssessment_frame_witness :
    ∃ f : PerformanceAssessment → PerformanceAssessment,
      (createAssessmentState exStViolating exIns).assessments
          = exStViolating.assessments.map f
            ++ [(createAssessment exStViolating exIns).1]
      ∧ (∀ a, (f a).id = a.id ∧ (f a).playerId = a.playerId
            ∧ (f a).weekStart = a.weekStart ∧ (f a).weekEnd = a.weekEnd
            ∧ (f a).notes = a.notes)
      ∧ (∀ a, a.playerId ≠ exIns.playerId → f a = a)
      ∧ (∀ a ∈ exStViolating.assessments,
          a.id ≠ (createAssessment exStViolating exIns).1.id) :=
  createAssessment_frame exStViolating exIns ⟨by decide, by decide⟩

end PlayerReview
